import Mathlib

/-!
Shallow embedding of the synchronous and asynchronous Modbus TCP clients
(`src/pymodbus/client/tcp.py`) and of the example server configuration
function `run_sync_server` (`src/examples/server_sync.py`).

Modelling conventions:
- Bytes are `Nat`; byte strings are `List Nat`; a list of received chunks
  (the Python `data` list in `recv`) is a `List (List Nat)` and
  `b"".join(data)` is `List.flatten`.
- Wall-clock time (`time.time()`) is a `Nat`; `self.params.timeout` is a
  `Nat` number of time units.
- The operating system and the remote peer are the environment.  Each
  iteration of the `recv` read loop observes one `IterEvent`: whether
  `select` reported the socket readable, the chunk `socket.recv` would
  deliver (`[]` models EOF, i.e. the remote closed the connection), and the
  value of `time.time()` at the end of that iteration.  `socket.recv(n)`
  returns at most `n` bytes, which the embedding renders as
  `List.take recv_size` of the chunk offered by the environment.
- `socket.send` returns the number of bytes the OS accepted; that number is
  an environment input (`osAccepted`).  The list of chunks actually written
  to the socket is returned alongside the result so that theorems can speak
  about what was (or was not) transmitted.
- Exceptions (`ConnectionException`) become explicit result constructors.
-/

namespace PyModbus

/-- Transaction states of `pymodbus.utilities.ModbusTransactionState`.
The module is imported, not part of `src/`; only the `RETRYING` state is
consulted by the TCP client code under verification. -/
inductive ModbusTransactionState where
  | idle
  | sending
  | waitingForReply
  | waitingTurnaroundDelay
  | processingReply
  | processingError
  | transactionComplete
  | retrying
deriving DecidableEq, Repr

/-- The framer classes a client or server can be configured with
(`pymodbus.framer`).  Only their identity matters to the claims. -/
inductive FramerType where
  | socketFramer
  | rtuFramer
  | asciiFramer
  | binaryFramer
  | tlsFramer
deriving DecidableEq, Repr

/-- The default value of the `framer` parameter in the signature of
`ModbusTcpClient.__init__` (tcp.py line 110): `ModbusSocketFramer`. -/
def tcpDefaultFramer : FramerType := FramerType.socketFramer

/-- The default value of the `framer` parameter in the signature of
`AsyncModbusTcpClient.__init__` (tcp.py line 43): `ModbusSocketFramer`. -/
def asyncTcpDefaultFramer : FramerType := FramerType.socketFramer

/-- The fields of `self.params` used by the synchronous TCP client. -/
structure ClientParams where
  host : String
  port : Nat
  timeout : Nat
deriving DecidableEq, Repr

/-- State of a synchronous `ModbusTcpClient`.  `socket` is `some fd` when
the client holds an open socket and `none` otherwise (`self.socket = None`).
`state` is the transaction state consulted by `send`. -/
structure ModbusTcpClient where
  params : ClientParams
  framer : FramerType
  socket : Option Nat
  state : ModbusTransactionState
  use_sync : Bool
deriving DecidableEq, Repr

/-- `ModbusTcpClient.__init__` (tcp.py lines 106-120) with an explicit
framer argument.  The base-class initialisation (not in `src/`) stores the
configuration; the client starts with no socket and `use_sync = True`.
The initial transaction state and the timeout come from the base class and
are modelled from the spec (idle client, configured per-request timeout). -/
def ModbusTcpClient.init (host : String) (port timeout : Nat)
    (framer : FramerType) : ModbusTcpClient :=
  { params := { host := host, port := port, timeout := timeout }
    framer := framer
    socket := none
    state := ModbusTransactionState.idle
    use_sync := true }

/-- `ModbusTcpClient(host, port)` constructed without an explicit `framer`
argument: Python substitutes the signature default `ModbusSocketFramer`. -/
def ModbusTcpClient.initNoFramer (host : String) (port timeout : Nat) :
    ModbusTcpClient :=
  ModbusTcpClient.init host port timeout tcpDefaultFramer

/-- The configuration stored by `AsyncModbusTcpClient.__init__`
(tcp.py lines 39-58); only the fields relevant to the claims. -/
structure AsyncModbusTcpClient where
  host : String
  port : Nat
  framer : FramerType
deriving DecidableEq, Repr

/-- `AsyncModbusTcpClient.__init__` with an explicit framer argument. -/
def AsyncModbusTcpClient.init (host : String) (port : Nat)
    (framer : FramerType) : AsyncModbusTcpClient :=
  { host := host, port := port, framer := framer }

/-- `AsyncModbusTcpClient(host, port)` constructed without an explicit
`framer` argument: Python substitutes the default `ModbusSocketFramer`. -/
def AsyncModbusTcpClient.initNoFramer (host : String) (port : Nat) :
    AsyncModbusTcpClient :=
  AsyncModbusTcpClient.init host port asyncTcpDefaultFramer

/-- `ModbusTcpClient.close` (tcp.py lines 156-160): close the held socket,
if any, and set `self.socket = None`. -/
def ModbusTcpClient.close (c : ModbusTcpClient) : ModbusTcpClient :=
  { c with socket := none }

/-- The `connected` property (tcp.py lines 122-125):
`self.socket is not None`. -/
def ModbusTcpClient.connected (c : ModbusTcpClient) : Bool :=
  c.socket.isSome

/-- `ModbusTcpClient.is_socket_open` (tcp.py lines 269-271):
`self.socket is not None`. -/
def ModbusTcpClient.is_socket_open (c : ModbusTcpClient) : Bool :=
  c.socket.isSome

/-- `ModbusTcpClient.connect` (tcp.py lines 127-154).  If a socket is
already held, return `True` at once.  Otherwise ask the OS for a
connection: `osResult = some fd` models `socket.create_connection`
(or the unix-socket path) succeeding, `osResult = none` models it raising
`OSError`, upon which the client calls `self.close()`.  The return value is
`self.socket is not None`. -/
def ModbusTcpClient.connect (c : ModbusTcpClient) (osResult : Option Nat) :
    Bool × ModbusTcpClient :=
  if c.socket.isSome then (true, c)
  else
    let c2 : ModbusTcpClient :=
      match osResult with
      | some fd => { c with socket := some fd }
      | none => c.close
    (c2.socket.isSome, c2)

/-- `ModbusTcpClient._check_read_buffer` (tcp.py lines 162-170): `select`
on the socket for up to the configured timeout (`ready` tells whether it
reported readable), then `socket.recv(1024)` delivering at most 1024 of
the available bytes; returns `None` when the socket was not readable. -/
def check_read_buffer (ready : Bool) (avail : List Nat) : Option (List Nat) :=
  if ready then some (avail.take 1024) else none

/-- Whether `_check_read_buffer` would return a truthy value (a non-`None`,
non-empty byte string) — the condition under which `send` in the
`RETRYING` state returns buffered data instead of transmitting. -/
def hasReadableBuffer (ready : Bool) (avail : List Nat) : Bool :=
  match check_read_buffer ready avail with
  | some d => !d.isEmpty
  | none => false

/-- Result of `ModbusTcpClient.send`. -/
inductive SendResult where
  | connError
  | recvd (data : List Nat)
  | sent (n : Nat)
deriving DecidableEq, Repr

/-- `ModbusTcpClient.send` (tcp.py lines 172-183).  `super().send` (base
class, not in `src/`) is modelled from the spec as having no observable
effect (the spec transport contract only enqueues bytes).  If no socket is
held, raise `ConnectionException`.  In the `RETRYING` state, if
`_check_read_buffer` yields truthy data, return it without writing.
Otherwise a non-empty request is handed to `socket.send` in one call
(returning the OS-accepted count `osAccepted`) and an empty request
returns `0`.  The middle component lists the chunks written to the socket;
the final component is the client afterwards (tcp.py never mutates it). -/
def ModbusTcpClient.send (c : ModbusTcpClient) (request : List Nat)
    (ready : Bool) (avail : List Nat) (osAccepted : Nat) :
    SendResult × List (List Nat) × ModbusTcpClient :=
  if c.socket.isNone then (SendResult.connError, [], c)
  else
    let buffered : Option (List Nat) :=
      if c.state = ModbusTransactionState.retrying then
        match check_read_buffer ready avail with
        | some d => if d = [] then none else some d
        | none => none
      else none
    match buffered with
    | some d => (SendResult.recvd d, [], c)
    | none =>
      if request = [] then (SendResult.sent 0, [], c)
      else (SendResult.sent osAccepted, [request], c)

/-- What one iteration of the `recv` read loop observes from the
environment: whether `select` reported the socket readable, the bytes the
socket would deliver (`[]` = the remote closed the connection), and the
value of `time.time()` taken at the end of the iteration. -/
structure IterEvent where
  ready : Bool
  chunk : List Nat
  newTime : Nat
deriving DecidableEq, Repr

/-- Result of `ModbusTcpClient.recv`: a normal return of bytes, a raised
`ConnectionException`, or `noMoreEvents` — a model artefact marking that
the supplied environment trace ended while the loop would have kept
polling (no corresponding exit exists in the Python loop). -/
inductive RecvOutcome where
  | connError
  | ok (bytes : List Nat)
  | noMoreEvents (sofar : List Nat)
deriving DecidableEq, Repr

/-- The byte string carried by a `RecvOutcome` (`[]` for a raised
exception). -/
def outcomeBytes : RecvOutcome → List Nat
  | RecvOutcome.connError => []
  | RecvOutcome.ok bytes => bytes
  | RecvOutcome.noMoreEvents sofar => sofar

/-- `ModbusTcpClient._handle_abrupt_socket_close` (tcp.py lines 239-267):
close the socket; if some chunks were accumulated return their
concatenation, else raise `ConnectionException`. -/
def ModbusTcpClient.handle_abrupt_socket_close (c : ModbusTcpClient)
    (data : List (List Nat)) : RecvOutcome × ModbusTcpClient :=
  let c2 := c.close
  if data = [] then (RecvOutcome.connError, c2)
  else (RecvOutcome.ok data.flatten, c2)

/-- The `while recv_size > 0` loop of `ModbusTcpClient.recv`
(tcp.py lines 213-237), one `IterEvent` per iteration.  `select` is called
with timeout `end - time_`; with a negative argument it raises
`ValueError`, caught and routed to `_handle_abrupt_socket_close`
(modelled by the `endT < time_` branch).  A readable socket delivering
`b""` is an abrupt close.  Otherwise the delivered chunk is appended,
`recv_size` is recomputed as `size - data_length` when `size` is truthy,
and the loop breaks once `time_ > end`. -/
def recvLoop (c : ModbusTcpClient) (size : Option Nat) (endT : Nat) :
    List IterEvent → Nat → Nat → List (List Nat) → Nat →
    RecvOutcome × ModbusTcpClient
  | [], _time, recv_size, data, _dl =>
    if recv_size = 0 then (RecvOutcome.ok data.flatten, c)
    else (RecvOutcome.noMoreEvents data.flatten, c)
  | e :: rest, time_, recv_size, data, data_length =>
    if recv_size = 0 then (RecvOutcome.ok data.flatten, c)
    else if endT < time_ then c.handle_abrupt_socket_close data
    else if e.ready = true ∧ e.chunk.take recv_size = [] then
      c.handle_abrupt_socket_close data
    else
      let recv_data := e.chunk.take recv_size
      let data2 := if e.ready then data ++ [recv_data] else data
      let data_length2 :=
        if e.ready then data_length + recv_data.length else data_length
      let recv_size2 :=
        match size with
        | some s => if s = 0 then recv_size else s - data_length2
        | none => recv_size
      if endT < e.newTime then (RecvOutcome.ok data2.flatten, c)
      else recvLoop c size endT rest e.newTime recv_size2 data2 data_length2

/-- `ModbusTcpClient.recv` (tcp.py lines 185-237).  `super().recv` (base
class, not in `src/`) is modelled from the spec as having no observable
effect.  If no socket is held, raise `ConnectionException`.  Otherwise set
the deadline to `time.time() + self.params.timeout`, initialise
`recv_size` to `size` (or 4096 when `size is None`), and run the read
loop over the environment trace. -/
def ModbusTcpClient.recv (c : ModbusTcpClient) (size : Option Nat)
    (events : List IterEvent) (startTime : Nat) :
    RecvOutcome × ModbusTcpClient :=
  if c.socket.isNone then (RecvOutcome.connError, c)
  else
    let recv_size :=
      match size with
      | none => 4096
      | some s => s
    recvLoop c size (startTime + c.params.timeout) events startTime
      recv_size [] 0

/-- The chunks a prefix of the environment trace delivers: the `chunk`
fields of its `ready` events (these are the chunks `recv` appends to
`data` while none of them is empty and none overflows `recv_size`). -/
def readyChunks (evs : List IterEvent) : List (List Nat) :=
  (evs.filter fun e => e.ready).map fun e => e.chunk

/-- Total number of bytes the `ready` events of a trace prefix deliver. -/
def chunkSum (evs : List IterEvent) : Nat :=
  ((readyChunks evs).map List.length).sum

/-- The value of `time_` after the loop has consumed a trace prefix:
the `newTime` of the last event, or the starting time for the empty
prefix. -/
def lastTime (t : Nat) (evs : List IterEvent) : Nat :=
  evs.foldl (fun _ e => e.newTime) t

/-- The `--comm` choices of the example server command line. -/
inductive Comm where
  | tcp
  | udp
  | serial
  | tls
deriving DecidableEq, Repr

/-- The command-line arguments consumed by `run_sync_server`
(`src/examples/server_sync.py`).  `port = 0` models an absent/falsy
`args.port`. -/
structure ServerArgs where
  comm : Comm
  framer : FramerType
  port : Nat
  baudrate : Nat
deriving DecidableEq, Repr

/-- The configuration of the server started by `run_sync_server`: which
`Start*Server` was invoked and the arguments it received. -/
structure ServerConfig where
  kind : Comm
  framer : FramerType
  address : Option (String × Nat)
  serialPort : Option Nat
  baudrate : Option Nat
  tlsHost : Option String
deriving DecidableEq, Repr

/-- `run_sync_server` (server_sync.py lines 55-132): dispatch on
`args.comm` and start the corresponding server, passing `args.framer`
through unchanged in every branch. -/
def run_sync_server (args : ServerArgs) : ServerConfig :=
  match args.comm with
  | Comm.tcp =>
    { kind := Comm.tcp
      framer := args.framer
      address := if args.port ≠ 0 then some ("", args.port) else none
      serialPort := none
      baudrate := none
      tlsHost := none }
  | Comm.udp =>
    { kind := Comm.udp
      framer := args.framer
      address := if args.port ≠ 0 then some ("127.0.0.1", args.port) else none
      serialPort := none
      baudrate := none
      tlsHost := none }
  | Comm.serial =>
    { kind := Comm.serial
      framer := args.framer
      address := none
      serialPort := some args.port
      baudrate := some args.baudrate
      tlsHost := none }
  | Comm.tls =>
    { kind := Comm.tls
      framer := args.framer
      address := if args.port ≠ 0 then some ("", args.port) else none
      serialPort := none
      baudrate := none
      tlsHost := some "localhost" }

/-- A sample open, idle client used by witness theorems. -/
def sampleOpenClient : ModbusTcpClient :=
  { params := { host := "h", port := 502, timeout := 3 }
    framer := FramerType.socketFramer
    socket := some 0
    state := ModbusTransactionState.idle
    use_sync := true }

/-- A sample client in the `RETRYING` transaction state with an open
socket, used by witness theorems. -/
def sampleRetryClient : ModbusTcpClient :=
  { sampleOpenClient with state := ModbusTransactionState.retrying }

/-- A sample client holding no socket, used by witness theorems. -/
def sampleClosedClient : ModbusTcpClient :=
  { sampleOpenClient with socket := none }

lemma readyChunks_nil : readyChunks [] = [] := rfl

lemma chunkSum_nil : chunkSum [] = 0 := rfl

lemma lastTime_nil (t : Nat) : lastTime t [] = t := rfl

lemma lastTime_cons (t : Nat) (e : IterEvent) (evs : List IterEvent) :
    lastTime t (e :: evs) = lastTime e.newTime evs := rfl

lemma readyChunks_cons_ready {e : IterEvent} (h : e.ready = true)
    (evs : List IterEvent) : readyChunks (e :: evs) = e.chunk :: readyChunks evs := by
  simp [readyChunks, List.filter_cons, h]

lemma readyChunks_cons_not {e : IterEvent} (h : e.ready = false)
    (evs : List IterEvent) : readyChunks (e :: evs) = readyChunks evs := by
  simp [readyChunks, List.filter_cons, h]

lemma chunkSum_cons_ready {e : IterEvent} (h : e.ready = true)
    (evs : List IterEvent) :
    chunkSum (e :: evs) = e.chunk.length + chunkSum evs := by
  simp [chunkSum, readyChunks_cons_ready h]

lemma chunkSum_cons_not {e : IterEvent} (h : e.ready = false)
    (evs : List IterEvent) : chunkSum (e :: evs) = chunkSum evs := by
  simp [chunkSum, readyChunks_cons_not h]

lemma lastTime_le (endT : Nat) :
    ∀ (evs : List IterEvent) (t : Nat), t ≤ endT →
      (∀ ev ∈ evs, ev.newTime ≤ endT) → lastTime t evs ≤ endT := by
  intro evs
  induction evs with
  | nil => intro t ht _; simpa [lastTime] using ht
  | cons e evs ih =>
    intro t ht hall
    rw [lastTime_cons]
    exact ih e.newTime (hall e (List.mem_cons_self _ _))
      (fun x hx => hall x (List.mem_cons_of_mem _ hx))

/-- Walking the read loop over a prefix of the environment trace whose
events stay within the deadline, deliver no EOF, and deliver fewer bytes
than remain requested: the loop consumes the prefix, appending exactly the
delivered chunks and advancing the clock, and continues on the rest. -/
lemma recvLoop_walk (c : ModbusTcpClient) (s endT : Nat) :
    ∀ (pre rest : List IterEvent) (time_ : Nat) (data : List (List Nat))
      (dl : Nat),
      dl < s → time_ ≤ endT →
      (∀ ev ∈ pre, ev.newTime ≤ endT) →
      (∀ ev ∈ pre, ev.ready = true → ev.chunk ≠ []) →
      chunkSum pre + dl < s →
      recvLoop c (some s) endT (pre ++ rest) time_ (s - dl) data dl =
        recvLoop c (some s) endT rest (lastTime time_ pre)
          (s - (dl + chunkSum pre)) (data ++ readyChunks pre)
          (dl + chunkSum pre) := by
  intro pre
  induction pre with
  | nil =>
    intro rest time_ data dl _ _ _ _ _
    simp [chunkSum, readyChunks, lastTime]
  | cons ev pre ih =>
    intro rest time_ data dl hdl htime hpt hpc hsum
    have hevt : ev.newTime ≤ endT := hpt ev (List.mem_cons_self _ _)
    have hpt2 : ∀ x ∈ pre, x.newTime ≤ endT :=
      fun x hx => hpt x (List.mem_cons_of_mem _ hx)
    have hpc2 : ∀ x ∈ pre, x.ready = true → x.chunk ≠ [] :=
      fun x hx => hpc x (List.mem_cons_of_mem _ hx)
    have hrs : ¬(s - dl = 0) := by omega
    have hnt : ¬(endT < time_) := by omega
    have hnet : ¬(endT < ev.newTime) := by omega
    have hs0 : ¬(s = 0) := by omega
    by_cases hr : ev.ready = true
    · have hchunk : ev.chunk ≠ [] := hpc ev (List.mem_cons_self _ _) hr
      have hsum2 : ev.chunk.length + chunkSum pre + dl < s := by
        rw [chunkSum_cons_ready hr] at hsum; omega
      have hlen : ev.chunk.length ≤ s - dl := by omega
      have htake : ev.chunk.take (s - dl) = ev.chunk :=
        List.take_of_length_le hlen
      have hcond : ¬(ev.ready = true ∧ ev.chunk.take (s - dl) = []) := by
        rw [htake]; exact fun hh => hchunk hh.2
      rw [List.cons_append]
      simp only [recvLoop, if_neg hrs, if_neg hnt, htake, hr, hchunk,
        eq_self_iff_true, true_and, and_false, if_false, ite_false, if_true,
        ite_true, if_neg hnet, if_neg hs0]
      rw [ih rest ev.newTime (data ++ [ev.chunk]) (dl + ev.chunk.length)
        (by omega) hevt hpt2 hpc2 (by omega)]
      rw [lastTime_cons, chunkSum_cons_ready hr, readyChunks_cons_ready hr]
      simp [List.append_assoc, Nat.add_assoc]
    · have hrf : ev.ready = false := by revert hr; cases ev.ready <;> simp
      have hcond : ¬(ev.ready = true ∧ ev.chunk.take (s - dl) = []) := by
        rw [hrf]; rintro ⟨hh, -⟩; exact Bool.noConfusion hh
      have hsum2 : chunkSum pre + dl < s := by
        rw [chunkSum_cons_not hrf] at hsum; omega
      rw [List.cons_append]
      simp only [recvLoop, if_neg hrs, if_neg hnt, if_neg hcond, hrf,
        Bool.false_eq_true, false_and, if_false, ite_false, if_neg hnet,
        if_neg hs0]
      rw [ih rest ev.newTime data dl hdl hevt hpt2 hpc2 hsum2]
      rw [lastTime_cons, chunkSum_cons_not hrf, readyChunks_cons_not hrf]

lemma readyChunks_append (xs ys : List IterEvent) :
    readyChunks (xs ++ ys) = readyChunks xs ++ readyChunks ys := by
  simp [readyChunks, List.filter_append]

lemma chunkSum_append (xs ys : List IterEvent) :
    chunkSum (xs ++ ys) = chunkSum xs + chunkSum ys := by
  simp [chunkSum, readyChunks_append]

lemma chunkSum_append_ready {e : IterEvent} (h : e.ready = true)
    (xs : List IterEvent) :
    chunkSum (xs ++ [e]) = chunkSum xs + e.chunk.length := by
  rw [chunkSum_append, chunkSum_cons_ready h, chunkSum_nil]; omega

lemma readyChunks_append_ready {e : IterEvent} (h : e.ready = true)
    (xs : List IterEvent) :
    readyChunks (xs ++ [e]) = readyChunks xs ++ [e.chunk] := by
  rw [readyChunks_append, readyChunks_cons_ready h, readyChunks_nil]

lemma readyChunks_append_not {e : IterEvent} (h : e.ready = false)
    (xs : List IterEvent) :
    readyChunks (xs ++ [e]) = readyChunks xs := by
  rw [readyChunks_append, readyChunks_cons_not h, readyChunks_nil,
    List.append_nil]

/-- Once `recv_size` has dropped to zero the loop exits at the
`while recv_size > 0` check and returns the joined data, whatever the
remaining trace holds. -/
lemma recvLoop_size_zero (c : ModbusTcpClient) (size : Option Nat)
    (endT : Nat) (evs : List IterEvent) (t : Nat) (data : List (List Nat))
    (dl : Nat) :
    recvLoop c size endT evs t 0 data dl = (RecvOutcome.ok data.flatten, c) := by
  cases evs <;> simp [recvLoop]

/-- Claim C1: for every call to `ModbusTcpClient.recv` in which the remote
end closes the connection (the socket read yields an empty chunk) before
any data has been accumulated, `recv` raises `ConnectionException` and the
socket is closed; if some bytes were accumulated before the close, `recv`
closes the socket and returns exactly those bytes instead of raising.
The trace `pre` describes the iterations before the close: its events stay
within the deadline, none delivers an EOF, and together they deliver fewer
than `s` bytes; `e` is the iteration at which the socket read yields the
empty chunk. -/
theorem recv_abrupt_eof (c : ModbusTcpClient) (s startTime : Nat)
    (pre rest : List IterEvent) (e : IterEvent)
    (hopen : c.socket.isSome = true) (hs : 0 < s)
    (hpt : ∀ ev ∈ pre, ev.newTime ≤ startTime + c.params.timeout)
    (hpc : ∀ ev ∈ pre, ev.ready = true → ev.chunk ≠ [])
    (hsum : chunkSum pre < s)
    (her : e.ready = true) (hec : e.chunk = []) :
    c.recv (some s) (pre ++ e :: rest) startTime =
      if readyChunks pre = [] then (RecvOutcome.connError, c.close)
      else (RecvOutcome.ok (readyChunks pre).flatten, c.close) := by
  have hnone : c.socket.isNone = false := by
    cases hsock : c.socket with
    | none => rw [hsock] at hopen; exact Bool.noConfusion hopen
    | some fd => simp [hsock]
  have hw := recvLoop_walk c s (startTime + c.params.timeout) pre (e :: rest)
    startTime [] 0 hs (Nat.le_add_right _ _) hpt hpc (by omega)
  rw [Nat.sub_zero] at hw
  simp only [Nat.zero_add, List.nil_append] at hw
  have ht2 : lastTime startTime pre ≤ startTime + c.params.timeout :=
    lastTime_le _ pre startTime (Nat.le_add_right _ _) hpt
  have hrs : ¬(s - chunkSum pre = 0) := by omega
  simp only [ModbusTcpClient.recv, hnone, Bool.false_eq_true, if_false,
    ite_false]
  rw [hw]
  simp only [recvLoop, if_neg hrs, if_neg (not_lt.mpr ht2), hec,
    List.take_nil, her, eq_self_iff_true, and_self, if_true, ite_true,
    ModbusTcpClient.handle_abrupt_socket_close]

/-- Claim C2: `ModbusTcpClient.recv` uses the configured per-request
timeout as its deadline.  First conjunct: once the clock passes
`startTime + timeout` (at event `e`, after a prefix `pre` that stayed
within the deadline and delivered fewer than `size` bytes), the loop
terminates and `recv` returns the bytes accumulated so far, without
erroring and without touching the rest of the trace.  Second conjunct: the
loop also terminates as soon as `size` bytes have arrived, returning them
regardless of the remaining trace. -/
theorem recv_uses_timeout_deadline (c : ModbusTcpClient) (s startTime : Nat)
    (pre rest : List IterEvent) (e : IterEvent)
    (hopen : c.socket.isSome = true) (hs : 0 < s)
    (hpt : ∀ ev ∈ pre, ev.newTime ≤ startTime + c.params.timeout)
    (hpc : ∀ ev ∈ pre, ev.ready = true → ev.chunk ≠ []) :
    (chunkSum (pre ++ [e]) < s → (e.ready = true → e.chunk ≠ []) →
      startTime + c.params.timeout < e.newTime →
      c.recv (some s) (pre ++ e :: rest) startTime =
        (RecvOutcome.ok (readyChunks (pre ++ [e])).flatten, c)) ∧
    (e.ready = true → e.chunk ≠ [] →
      chunkSum pre + e.chunk.length = s →
      c.recv (some s) (pre ++ e :: rest) startTime =
        (RecvOutcome.ok (readyChunks (pre ++ [e])).flatten, c)) := by
  have hnone : c.socket.isNone = false := by
    cases hsock : c.socket with
    | none => rw [hsock] at hopen; exact Bool.noConfusion hopen
    | some fd => simp [hsock]
  have ht2 : lastTime startTime pre ≤ startTime + c.params.timeout :=
    lastTime_le _ pre startTime (Nat.le_add_right _ _) hpt
  have hs0 : ¬(s = 0) := by omega
  constructor
  · intro hsum he hlate
    have hsle : chunkSum pre ≤ chunkSum (pre ++ [e]) := by
      rw [chunkSum_append]; omega
    have hspre : chunkSum pre + 0 < s := by omega
    have hw := recvLoop_walk c s (startTime + c.params.timeout) pre
      (e :: rest) startTime [] 0 hs (Nat.le_add_right _ _) hpt hpc hspre
    rw [Nat.sub_zero] at hw
    simp only [Nat.zero_add, List.nil_append] at hw
    have hrs : ¬(s - chunkSum pre = 0) := by omega
    simp only [ModbusTcpClient.recv, hnone, Bool.false_eq_true, if_false,
      ite_false]
    rw [hw]
    by_cases hr : e.ready = true
    · have hchunk : e.chunk ≠ [] := he hr
      have hsum2 : chunkSum pre + e.chunk.length < s := by
        rw [chunkSum_append_ready hr] at hsum; omega
      have hlen : e.chunk.length ≤ s - chunkSum pre := by omega
      have htake : e.chunk.take (s - chunkSum pre) = e.chunk :=
        List.take_of_length_le hlen
      simp only [recvLoop, if_neg hrs, if_neg (not_lt.mpr ht2), htake, hr,
        hchunk, eq_self_iff_true, true_and, and_false, if_false, ite_false,
        if_true, ite_true, if_neg hs0, if_pos hlate]
      rw [readyChunks_append_ready hr]
    · have hrf : e.ready = false := by revert hr; cases e.ready <;> simp
      have hcond : ¬(e.ready = true ∧
          e.chunk.take (s - chunkSum pre) = []) := by
        rw [hrf]; rintro ⟨hh, -⟩; exact Bool.noConfusion hh
      simp only [recvLoop, if_neg hrs, if_neg (not_lt.mpr ht2), if_neg hcond,
        hrf, Bool.false_eq_true, false_and, if_false, ite_false,
        if_neg hs0, if_pos hlate]
      rw [readyChunks_append_not hrf]
  · intro hr hchunk hsz
    have hlenpos : 0 < e.chunk.length := List.length_pos.mpr hchunk
    have hspre : chunkSum pre + 0 < s := by omega
    have hw := recvLoop_walk c s (startTime + c.params.timeout) pre
      (e :: rest) startTime [] 0 hs (Nat.le_add_right _ _) hpt hpc hspre
    rw [Nat.sub_zero] at hw
    simp only [Nat.zero_add, List.nil_append] at hw
    have hrs : ¬(s - chunkSum pre = 0) := by omega
    simp only [ModbusTcpClient.recv, hnone, Bool.false_eq_true, if_false,
      ite_false]
    rw [hw]
    have hlen : e.chunk.length ≤ s - chunkSum pre := by omega
    have htake : e.chunk.take (s - chunkSum pre) = e.chunk :=
      List.take_of_length_le hlen
    simp only [recvLoop, if_neg hrs, if_neg (not_lt.mpr ht2), htake, hr,
      hchunk, eq_self_iff_true, true_and, and_false, if_false, ite_false,
      if_true, ite_true, if_neg hs0]
    have hzero : s - (chunkSum pre + e.chunk.length) = 0 := by omega
    rw [hzero, recvLoop_size_zero, ite_self, readyChunks_append_ready hr]

lemma handle_abrupt_bytes_le {c : ModbusTcpClient} {data : List (List Nat)}
    {s : Nat} (h : data.flatten.length ≤ s) :
    (outcomeBytes (c.handle_abrupt_socket_close data).1).length ≤ s := by
  simp only [ModbusTcpClient.handle_abrupt_socket_close]
  split
  · simp [outcomeBytes]
  · simpa [outcomeBytes] using h

/-- Invariant of the read loop: whenever `recv_size` equals the requested
size minus the bytes accumulated so far, every outcome of the loop carries
at most `s` bytes. -/
lemma recvLoop_bytes_le (s : Nat) (hs0 : ¬(s = 0)) :
    ∀ (events : List IterEvent) (c : ModbusTcpClient) (endT time_ : Nat)
      (data : List (List Nat)),
      data.flatten.length ≤ s →
      (outcomeBytes (recvLoop c (some s) endT events time_
        (s - data.flatten.length) data data.flatten.length).1).length ≤ s := by
  intro events
  induction events with
  | nil =>
    intro c endT time_ data hle
    simp only [recvLoop]
    split
    · simpa [outcomeBytes] using hle
    · simpa [outcomeBytes] using hle
  | cons e rest ih =>
    intro c endT time_ data hle
    simp only [recvLoop]
    split
    · simpa [outcomeBytes] using hle
    · split
      · exact handle_abrupt_bytes_le hle
      · split
        · exact handle_abrupt_bytes_le hle
        · by_cases hr : e.ready = true
          · simp only [hr, eq_self_iff_true, if_true, ite_true, if_neg hs0]
            generalize hgd : e.chunk.take (s - data.flatten.length) = rd
            have hrd : rd.length ≤ s - data.flatten.length := by
              rw [← hgd]; exact List.length_take_le _ _
            have hfl : (data ++ [rd]).flatten.length =
                data.flatten.length + rd.length := by simp
            split
            · simp only [outcomeBytes, hfl]; omega
            · have h2 := ih c endT e.newTime (data ++ [rd]) (by omega)
              rw [hfl] at h2
              exact h2
          · have hrf : e.ready = false := by revert hr; cases e.ready <;> simp
            simp only [hrf, Bool.false_eq_true, if_false, ite_false,
              if_neg hs0]
            split
            · simpa [outcomeBytes] using hle
            · exact ih c endT e.newTime data hle

/-- Claim C9: for every positive requested size, `ModbusTcpClient.recv`
returns at most `size` bytes — the loop only ever asks the socket for the
remaining `size - data_length` bytes, so the concatenated result never
exceeds the requested size, on any environment trace. -/
theorem recv_at_most_size (c : ModbusTcpClient) (s : Nat)
    (events : List IterEvent) (startTime : Nat) (bytes : List Nat)
    (c2 : ModbusTcpClient) (hs : 0 < s)
    (heq : c.recv (some s) events startTime = (RecvOutcome.ok bytes, c2)) :
    bytes.length ≤ s := by
  simp only [ModbusTcpClient.recv] at heq
  by_cases hn : c.socket.isNone = true
  · rw [if_pos hn] at heq
    simp at heq
  · rw [if_neg hn] at heq
    have h := recvLoop_bytes_le s (by omega) events c
      (startTime + c.params.timeout) startTime [] (by simp)
    simp only [List.flatten_nil, List.length_nil, Nat.sub_zero] at h
    rw [heq] at h
    simpa [outcomeBytes] using h

/-- Characterisation of `send` on an open socket: buffered data is
returned exactly when the client is retrying and the read buffer is
readable; otherwise a non-empty request is written in one call and an
empty request writes nothing. -/
lemma send_open_eq (c : ModbusTcpClient) (request : List Nat) (ready : Bool)
    (avail : List Nat) (osAccepted : Nat) (hopen : c.socket.isSome = true) :
    c.send request ready avail osAccepted =
      if c.state = ModbusTransactionState.retrying ∧
          hasReadableBuffer ready avail = true then
        (SendResult.recvd ((check_read_buffer ready avail).getD []), [], c)
      else if request = [] then (SendResult.sent 0, [], c)
      else (SendResult.sent osAccepted, [request], c) := by
  have hnone : c.socket.isNone = false := by
    cases hsock : c.socket with
    | none => rw [hsock] at hopen; exact Bool.noConfusion hopen
    | some fd => simp [hsock]
  simp only [ModbusTcpClient.send, hnone, Bool.false_eq_true, if_false,
    ite_false]
  by_cases hstate : c.state = ModbusTransactionState.retrying
  · cases hcrb : check_read_buffer ready avail with
    | none => simp [hstate, hcrb, hasReadableBuffer]
    | some d =>
      by_cases hd : d = []
      · simp [hstate, hcrb, hd, hasReadableBuffer]
      · simp [hstate, hcrb, hd, hasReadableBuffer]
  · simp [hstate]

/-- Claim C3 counterexample: a `send` call made while a retry is in
progress (state `RETRYING`) on an open connection, with readable buffered
data, does not write the request bytes to the socket: the write trace is
empty (not the retransmitted request) and the buffered data is returned
instead. -/
theorem retry_send_counterexample :
    sampleRetryClient.send [1, 2, 3] true [9] 3 =
      (SendResult.recvd [9], [], sampleRetryClient) ∧
    ([] : List (List Nat)) ≠ [[1, 2, 3]] := by
  exact ⟨rfl, by decide⟩

/-- Claim C3 (amended): when a retry is in progress on an open connection,
`send` first polls the read buffer; if readable data is present it returns
that data without retransmitting, and only otherwise are the identical
request bytes written to the socket again before awaiting the response. -/
theorem retry_send_amended (c : ModbusTcpClient) (request avail : List Nat)
    (ready : Bool) (osAccepted : Nat)
    (hopen : c.socket.isSome = true)
    (hretry : c.state = ModbusTransactionState.retrying) :
    (∀ d, check_read_buffer ready avail = some d → d ≠ [] →
      c.send request ready avail osAccepted = (SendResult.recvd d, [], c)) ∧
    (hasReadableBuffer ready avail = false → request ≠ [] →
      c.send request ready avail osAccepted =
        (SendResult.sent osAccepted, [request], c)) := by
  constructor
  · intro d hcrb hd
    rw [send_open_eq c request ready avail osAccepted hopen,
      if_pos ⟨hretry, by simp [hasReadableBuffer, hcrb, hd]⟩]
    simp [hcrb]
  · intro hno hreq
    rw [send_open_eq c request ready avail osAccepted hopen,
      if_neg (by rw [hno]; rintro ⟨-, hh⟩; exact Bool.noConfusion hh),
      if_neg hreq]

/-- Claim C4: for every non-empty request and every client whose socket is
open and which is not in the retrying state with readable buffered data,
`send` hands the request bytes to the OS socket in a single call and
returns the number of bytes the OS accepted; for an empty request it
writes nothing and returns `0`. -/
theorem send_single_write (c : ModbusTcpClient) (request avail : List Nat)
    (ready : Bool) (osAccepted : Nat)
    (hopen : c.socket.isSome = true)
    (hnb : ¬(c.state = ModbusTransactionState.retrying ∧
        hasReadableBuffer ready avail = true)) :
    (request ≠ [] →
      c.send request ready avail osAccepted =
        (SendResult.sent osAccepted, [request], c)) ∧
    c.send [] ready avail osAccepted = (SendResult.sent 0, [], c) := by
  constructor
  · intro hreq
    rw [send_open_eq c request ready avail osAccepted hopen, if_neg hnb,
      if_neg hreq]
  · rw [send_open_eq c [] ready avail osAccepted hopen, if_neg hnb,
      if_pos rfl]

/-- Claim C5 counterexample: `run_sync_server` does not reject the
nonsensical pair `--comm tcp --framer rtu` at configuration time; it
starts the TCP server with the RTU framer passed through unchanged. -/
theorem framer_not_validated :
    (run_sync_server
      { comm := Comm.tcp, framer := FramerType.rtuFramer,
        port := 5020, baudrate := 9600 }).framer = FramerType.rtuFramer := rfl

/-- Claim C5 (amended): for every combination of `--comm` and `--framer`,
`run_sync_server` performs no framer/transport validation: it always
starts the server kind selected by `--comm` and passes the `--framer`
value to it unchanged. -/
theorem run_sync_server_passes_framer (args : ServerArgs) :
    (run_sync_server args).framer = args.framer ∧
    (run_sync_server args).kind = args.comm := by
  rcases args with ⟨comm, framer, port, baudrate⟩
  cases comm <;> simp [run_sync_server]

/-- Claim C6: `is_socket_open()` and the `connected` property return
`True` exactly when the client holds a socket; after any call to
`close()` both return `False`; and `close()` is idempotent — calling it on
an already-closed client leaves it closed. -/
theorem open_state_matches_close (c : ModbusTcpClient) :
    (c.is_socket_open = c.socket.isSome) ∧
    (c.connected = c.socket.isSome) ∧
    (c.close.is_socket_open = false) ∧
    (c.close.connected = false) ∧
    (c.close.close = c.close) :=
  ⟨rfl, rfl, rfl, rfl, rfl⟩

/-- Claim C7: both the synchronous and the asynchronous TCP client, when
constructed without an explicit framer argument, use the Socket (MBAP)
framer: the signature defaults of both constructors are
`ModbusSocketFramer`. -/
theorem default_framer_socket (host : String) (port timeout : Nat) :
    (ModbusTcpClient.initNoFramer host port timeout).framer =
      FramerType.socketFramer ∧
    (AsyncModbusTcpClient.initNoFramer host port).framer =
      FramerType.socketFramer ∧
    tcpDefaultFramer = FramerType.socketFramer ∧
    asyncTcpDefaultFramer = FramerType.socketFramer :=
  ⟨rfl, rfl, rfl, rfl⟩

/-- Claim C8: for every client holding no socket, both `send` and `recv`
raise `ConnectionException` immediately — nothing is transmitted (empty
write trace), no event of the environment trace is consumed, and the
client is returned unchanged. -/
theorem closed_client_raises (c : ModbusTcpClient) (hclosed : c.socket = none)
    (request avail : List Nat) (ready : Bool) (osAccepted : Nat)
    (size : Option Nat) (events : List IterEvent) (startTime : Nat) :
    c.send request ready avail osAccepted = (SendResult.connError, [], c) ∧
    c.recv size events startTime = (RecvOutcome.connError, c) := by
  have hn : c.socket.isNone = true := by rw [hclosed]; rfl
  constructor
  · simp [ModbusTcpClient.send, hn]
  · simp [ModbusTcpClient.recv, hn]

/-- Claim C10: `connect` is idempotent on an open client — if a socket is
already held it returns `True` at once without replacing the socket; in
every case the returned Boolean equals whether the client holds a socket
afterwards; and on `OSError` it closes the client and returns `False`. -/
theorem connect_idempotent (c : ModbusTcpClient) (osResult : Option Nat) :
    (c.socket.isSome = true → c.connect osResult = (true, c)) ∧
    ((c.connect osResult).1 = (c.connect osResult).2.socket.isSome) ∧
    (c.socket = none → c.connect none = (false, c.close)) := by
  refine ⟨?_, ?_, ?_⟩
  · intro h; simp [ModbusTcpClient.connect, h]
  · by_cases h : c.socket.isSome = true
    · simp [ModbusTcpClient.connect, h]
    · cases osResult with
      | none => simp [ModbusTcpClient.connect, h, ModbusTcpClient.close]
      | some fd => simp [ModbusTcpClient.connect, h]
  · intro h
    have h2 : ¬(c.socket.isSome = true) := by rw [h]; simp
    simp [ModbusTcpClient.connect, h2, ModbusTcpClient.close]

/-- Witness for claim C1, at a concrete client and trace: EOF on the very
first iteration with no data accumulated raises `ConnectionException` and
closes the socket. -/
theorem recv_abrupt_eof_witness :
    sampleOpenClient.socket.isSome = true ∧
    sampleOpenClient.recv (some 1)
        [{ ready := true, chunk := [], newTime := 1 }] 0 =
      (RecvOutcome.connError, sampleOpenClient.close) := by
  refine ⟨rfl, ?_⟩
  have h := recv_abrupt_eof sampleOpenClient 1 0 [] []
    { ready := true, chunk := [], newTime := 1 } rfl (by decide)
    (by intro ev hev; cases hev) (by intro ev hev; cases hev) (by decide)
    rfl rfl
  exact h

/-- Witness for claim C2, at a concrete client and trace: with timeout 3
and a single not-ready iteration observing time 100, `recv` returns the
(empty) accumulated data at the deadline. -/
theorem recv_uses_timeout_deadline_witness :
    sampleOpenClient.socket.isSome = true ∧
    sampleOpenClient.recv (some 4)
        [{ ready := false, chunk := [], newTime := 100 }] 0 =
      (RecvOutcome.ok [], sampleOpenClient) := by
  refine ⟨rfl, ?_⟩
  have h := (recv_uses_timeout_deadline sampleOpenClient 4 0 [] []
    { ready := false, chunk := [], newTime := 100 } rfl (by decide)
    (by intro ev hev; cases hev) (by intro ev hev; cases hev)).1
    (by decide) (by intro hh; exact absurd hh (by decide)) (by decide)
  exact h

/-- Witness for the amended claim C3, at a concrete retrying client:
`send` returns the buffered byte `9` and writes nothing. -/
theorem retry_send_amended_witness :
    sampleRetryClient.socket.isSome = true ∧
    sampleRetryClient.state = ModbusTransactionState.retrying ∧
    sampleRetryClient.send [1, 2, 3] true [9] 3 =
      (SendResult.recvd [9], [], sampleRetryClient) := by
  refine ⟨rfl, rfl, ?_⟩
  exact (retry_send_amended sampleRetryClient [1, 2, 3] [9] true 3 rfl
    rfl).1 [9] rfl (by decide)

/-- Witness for claim C4, at a concrete open idle client. -/
theorem send_single_write_witness :
    sampleOpenClient.socket.isSome = true ∧
    sampleOpenClient.send [1, 2] false [] 7 =
      (SendResult.sent 7, [[1, 2]], sampleOpenClient) ∧
    sampleOpenClient.send [] false [] 7 =
      (SendResult.sent 0, [], sampleOpenClient) := by
  have h := send_single_write sampleOpenClient [1, 2] [] false 7 rfl
    (by decide)
  exact ⟨rfl, h.1 (by decide), h.2⟩

/-- Witness for claim C8, at a concrete closed client. -/
theorem closed_client_raises_witness :
    sampleClosedClient.socket = none ∧
    sampleClosedClient.send [1] false [] 0 =
      (SendResult.connError, [], sampleClosedClient) ∧
    sampleClosedClient.recv (some 3) [] 0 =
      (RecvOutcome.connError, sampleClosedClient) := by
  have h := closed_client_raises sampleClosedClient rfl [1] [] false 0
    (some 3) [] 0
  exact ⟨rfl, h.1, h.2⟩

/-- Witness for claim C9, at a concrete trace delivering exactly one
byte for a one-byte read. -/
theorem recv_at_most_size_witness :
    0 < 1 ∧ ([7] : List Nat).length ≤ 1 := by
  refine ⟨by decide, ?_⟩
  exact recv_at_most_size sampleOpenClient 1
    [{ ready := true, chunk := [7], newTime := 5 }] 0 [7] sampleOpenClient
    (by decide) rfl

/-- Witness for claim C10, at a concrete open client (idempotence) and a
concrete closed client with the OS refusing the connection. -/
theorem connect_idempotent_witness :
    sampleOpenClient.socket.isSome = true ∧
    sampleOpenClient.connect (some 5) = (true, sampleOpenClient) ∧
    sampleClosedClient.connect none = (false, sampleClosedClient.close) := by
  refine ⟨rfl, ?_, ?_⟩
  · exact (connect_idempotent sampleOpenClient (some 5)).1 rfl
  · exact (connect_idempotent sampleClosedClient none).2.2 rfl

end PyModbus
